import Mathlib

/-!
Verification of the newsletter publishing platform's idempotent publish
endpoint, delivery queue fan-out, and newsletter-issue validation.

Rust strings are modelled as lists of grapheme clusters (`GStr`), each
cluster a list of characters, because the length validators of the source
count grapheme clusters (`unicode_segmentation`'s `graphemes(true).count()`)
while the character-level checks (forbidden characters, trimming) iterate
over `chars()` of the whole string.  Uuids and timestamps are modelled as
`Nat`; the relational store is modelled as explicit lists of rows.
-/

deriving instance DecidableEq for Except

namespace NewsletterApi

/-- A Rust string segmented into grapheme clusters. -/
abbrev GStr := List (List Char)

/-- All characters of the string, in order (Rust's `s.chars()`). -/
def gchars (s : GStr) : List Char := s.flatten

/-- Rust's `char::is_whitespace`: the Unicode White_Space code points. -/
def rustWhitespace (c : Char) : Bool :=
  c ∈ ['\t', '\n', '\x0b', '\x0c', '\r', ' ', '\x85', '\xa0',
       '\u1680', '\u2000', '\u2001', '\u2002', '\u2003', '\u2004',
       '\u2005', '\u2006', '\u2007', '\u2008', '\u2009', '\u200a',
       '\u2028', '\u2029', '\u202f', '\u205f', '\u3000']

/-- Rust's `str::trim`: drop leading and trailing whitespace characters. -/
def rustTrim (cs : List Char) : List Char :=
  ((cs.dropWhile rustWhitespace).reverse.dropWhile rustWhitespace).reverse

/-- Embeds `utils.rs` `FORBIDDEN_CHARACTERS`. -/
def FORBIDDEN_CHARACTERS : List Char :=
  ['/', '(', ')', '\"', '<', '>', '\\', '\x7b', '\x7d']

/-- Embeds `utils.rs` `contains_forbidden_characters`. -/
def contains_forbidden_characters (s : GStr) : Bool :=
  (gchars s).any (fun g => FORBIDDEN_CHARACTERS.contains g)

/-- Embeds `utils.rs` `is_too_long`: more than `max` grapheme clusters. -/
def is_too_long (s : GStr) (max : Nat) : Bool :=
  s.length > max

/-- Embeds `utils.rs` `is_empty_or_whitespace`. -/
def is_empty_or_whitespace (s : GStr) : Bool :=
  (rustTrim (gchars s)).isEmpty

/-- Embeds `domain/newsletter_issue/content.rs` `Content::parse`. -/
def Content.parse (s : GStr) : Except String GStr :=
  if is_empty_or_whitespace s then
    Except.error "Content body is required."
  else
    Except.ok s

/-- Embeds `domain/newsletter_issue/description.rs` `Description::parse`. -/
def Description.parse (s : GStr) : Except String GStr :=
  if is_empty_or_whitespace s then
    Except.error "A description is required."
  else if is_too_long s 200 then
    Except.error "Description exceeds character limit."
  else if contains_forbidden_characters s then
    Except.error "Description includes illegal characters."
  else
    Except.ok s

/-- Embeds `domain/newsletter_issue/title.rs` `Title::parse`. -/
def Title.parse (s : GStr) : Except String GStr :=
  if is_empty_or_whitespace s then
    Except.error "A title is required."
  else if is_too_long s 70 then
    Except.error "Title exceeds character limit."
  else if contains_forbidden_characters s then
    Except.error "Title includes illegal characters."
  else
    Except.ok s

/-- Embeds the `newsletter_issues` row (`models/newsletter.rs` `NewsletterIssue`). -/
structure NewsletterIssue where
  content : GStr
  cover_image_url : String
  created_at : Nat
  description : GStr
  newsletter_issue_id : Nat
  published_at : Option Nat
  slug : String
  title : GStr
  user_id : Nat
  deriving DecidableEq

/-- Embeds `models/newsletter.rs` `NewsletterIssue::validate_for_publish`:
parses content, description and title in that order, rebuilding the issue
from the parsed values on success. -/
def NewsletterIssue.validate_for_publish (self : NewsletterIssue) :
    Except String NewsletterIssue :=
  match Content.parse self.content with
  | Except.error e => Except.error e
  | Except.ok content =>
  match Description.parse self.description with
  | Except.error e => Except.error e
  | Except.ok description =>
  match Title.parse self.title with
  | Except.error e => Except.error e
  | Except.ok title =>
    Except.ok
      { content := content
        cover_image_url := self.cover_image_url
        created_at := self.created_at
        description := description
        newsletter_issue_id := self.newsletter_issue_id
        published_at := self.published_at
        slug := self.slug
        title := title
        user_id := self.user_id }

/-- Body of an HTTP response before JSON serialization: either a
`ResponseMessage` payload or a `ResponseErrorMessage` payload (`utils.rs`). -/
inductive Body
  | message (m : String)
  | failure (e : String)
  deriving DecidableEq

/-- An HTTP response: status code, headers and body (the shape persisted by
the idempotency layer per the spec's SavedResponse). -/
structure HttpResponse where
  status : Nat
  headers : List (String × String)
  body : Body
  deriving DecidableEq

def contentTypeJson : String × String := ("Content-Type", "application/json")

/-- Embeds `utils.rs` `e400` composed with `ServerError::error_response`. -/
def e400 (e : String) : HttpResponse :=
  { status := 400, headers := [contentTypeJson], body := Body.failure e }

/-- Embeds `utils.rs` `e404` composed with `ServerError::error_response`. -/
def e404 (e : String) : HttpResponse :=
  { status := 404, headers := [contentTypeJson], body := Body.failure e }

/-- Embeds `utils.rs` `e500` composed with `ServerError::error_response`. -/
def e500 (e : String) : HttpResponse :=
  { status := 500, headers := [contentTypeJson], body := Body.failure e }

/-- Embeds `routes/admin/newsletters/detail/publish.rs` `SUCCESS_MESSAGE`. -/
def SUCCESS_MESSAGE : String :=
  "The newsletter issue has been accepted - emails will go out shortly."

/-- A `subscriptions` row, restricted to the columns the delivery queue
fan-out and the worker read. -/
structure Subscription where
  email : String
  status : String
  user_id : Nat
  deriving DecidableEq

/-- An `idempotency` row: keyed by `(user_id, idempotency_key)`, response
fields null while reserved (spec section 3, SavedResponse). -/
structure IdempotencyRow where
  user_id : Nat
  idempotency_key : String
  response : Option HttpResponse
  deriving DecidableEq

/-- An `issue_delivery_queue` row (spec section 3, DeliveryQueueEntry).
`n_retries` starts at zero and `execute_after` starts null (no backoff). -/
structure QueueRow where
  newsletter_issue_id : Nat
  subscriber_email : String
  n_retries : Nat
  execute_after : Option Nat
  deriving DecidableEq

/-- The relational store, plus `sent`: the model's log of notification-sender
invocations, one `(newsletter_issue_id, subscriber_email)` entry per call to
the external sender. -/
structure DB where
  issues : List NewsletterIssue
  subscriptions : List Subscription
  idempotency : List IdempotencyRow
  issue_delivery_queue : List QueueRow
  sent : List (Nat × String)
  deriving DecidableEq

/-- Modelled from the spec: the idempotency module is not among the provided
sources.  Spec section 3: an IdempotencyKey wraps a string whose invariant is
non-empty and length at most 50 characters; rejected values produce a
user-facing error. -/
def IdempotencyKey.try_from (s : String) : Except String String :=
  if s.isEmpty then
    Except.error "The idempotency key cannot be empty."
  else if s.length > 50 then
    Except.error "The idempotency key must be no longer than 50 characters."
  else
    Except.ok s

/-- The saved-response row for `(user_id, idempotency_key)`, if any. -/
def findIdemRow? (db : DB) (user_id : Nat) (key : String) : Option IdempotencyRow :=
  db.idempotency.find? (fun row =>
    row.user_id == user_id && row.idempotency_key == key)

/-- Modelled from the spec: result of `try_processing` (spec section 4.1);
`StartProcessing` carries the open transaction, modelled as the state with
the reserved row inserted. -/
inductive NextAction
  | StartProcessing (txn : DB)
  | ReturnSavedResponse (r : HttpResponse)
  deriving DecidableEq

/-- Modelled from the spec: `try_processing(pool, key, user_id)` (spec
section 4.1).  Inserts a reserved row under the uniqueness constraint and
returns `StartProcessing`; on conflict fetches the saved response and returns
`ReturnSavedResponse`.  A conflict with still-null response fields is the
transient concurrent state the spec leaves to storage-lock semantics (spec
section 9, open question); the sequential model returns `none` for it. -/
def try_processing (db : DB) (key : String) (user_id : Nat) : Option NextAction :=
  match findIdemRow? db user_id key with
  | none =>
      some (NextAction.StartProcessing
        { db with idempotency := db.idempotency ++
            [{ user_id := user_id, idempotency_key := key, response := none }] })
  | some row =>
      match row.response with
      | some r => some (NextAction.ReturnSavedResponse r)
      | none => none

/-- Modelled from the spec: `save_response(transaction, key, user_id,
response)` (spec section 4.1): finalizes the reserved row's response fields
within the open transaction, commits, and hands the response back. -/
def save_response (txn : DB) (key : String) (user_id : Nat) (r : HttpResponse) :
    HttpResponse × DB :=
  (r, { txn with idempotency := txn.idempotency.map (fun row =>
          if row.user_id == user_id && row.idempotency_key == key then
            { row with response := some r }
          else row) })

/-- Embeds `models/newsletter.rs`
`NewsletterIssue::find_by_user_id_and_newsletter_issue_id_txn`. -/
def find_by_user_id_and_newsletter_issue_id (issues : List NewsletterIssue)
    (user_id newsletter_issue_id : Nat) : Option NewsletterIssue :=
  issues.find? (fun i =>
    i.user_id == user_id && i.newsletter_issue_id == newsletter_issue_id)

/-- Embeds `models/newsletter.rs` `NewsletterIssue::publish_newsletter`: the
UPDATE setting `published_at = now()` on the row matching the issue id and
owning user. -/
def NewsletterIssue.publish_newsletter (self : NewsletterIssue) (now : Nat)
    (txn : DB) : DB :=
  { txn with issues := txn.issues.map (fun i =>
      if i.newsletter_issue_id == self.newsletter_issue_id
          && i.user_id == self.user_id then
        { i with published_at := some now }
      else i) }

/-- The queue row created for a subscriber when an issue is published. -/
def freshQueueRow (newsletter_issue_id : Nat) (email : String) : QueueRow :=
  { newsletter_issue_id := newsletter_issue_id, subscriber_email := email,
    n_retries := 0, execute_after := none }

/-- Embeds `routes/admin/newsletters/detail/publish.rs`
`enqueue_delivery_tasks`: INSERT..SELECT of one row per subscription with
status confirmed and the issue's owning user. -/
def enqueue_delivery_tasks (txn : DB) (newsletter_issue_id user_id : Nat) : DB :=
  { txn with issue_delivery_queue := (txn.issue_delivery_queue ++
      ((txn.subscriptions.filter (fun s =>
          s.status == "confirmed" && s.user_id == user_id)).map
        (fun s => freshQueueRow newsletter_issue_id s.email))) }

/-- Embeds `routes/admin/newsletters/index.rs` `enqueue_delivery_tasks`: its
INSERT..SELECT filters on status confirmed only, with no user filter. -/
def enqueue_delivery_tasks_all_subscribers (txn : DB)
    (newsletter_issue_id : Nat) : DB :=
  { txn with issue_delivery_queue := (txn.issue_delivery_queue ++
      ((txn.subscriptions.filter (fun s => s.status == "confirmed")).map
        (fun s => freshQueueRow newsletter_issue_id s.email))) }

/-- The HTTP 200 response the publish endpoint builds on success:
`HttpResponse::Ok().content_type(json).json(ResponseMessage::from(SUCCESS_MESSAGE))`. -/
def successResponse : HttpResponse :=
  { status := 200, headers := [contentTypeJson],
    body := Body.message SUCCESS_MESSAGE }

/-- Embeds `routes/admin/newsletters/detail/publish.rs` `put`, the publish
endpoint: key validation, then `try_processing`, then (in one transaction)
issue lookup, publish validation, the `published_at` UPDATE, the delivery
fan-out, and `save_response`.  An error on any step returns the error
response with the transaction rolled back (state unchanged); the transient
reserved-row conflict surfaces as a server error in this sequential model.
`now` stands for the database clock. -/
def put (db : DB) (user_id newsletter_issue_id : Nat) (idempotency_key : String)
    (now : Nat) : HttpResponse × DB :=
  match IdempotencyKey.try_from idempotency_key with
  | Except.error e => (e400 e, db)
  | Except.ok key =>
  match try_processing db key user_id with
  | none => (e500 "A concurrent request holds this idempotency key.", db)
  | some (NextAction.ReturnSavedResponse saved) => (saved, db)
  | some (NextAction.StartProcessing txn) =>
  match find_by_user_id_and_newsletter_issue_id txn.issues user_id
      newsletter_issue_id with
  | none => (e404 "Failed to query for newsletter issue.", db)
  | some issue =>
  match issue.validate_for_publish with
  | Except.error e => (e400 e, db)
  | Except.ok validated =>
    let txn := validated.publish_newsletter now txn
    let txn := enqueue_delivery_tasks txn newsletter_issue_id user_id
    save_response txn key user_id successResponse

/-- Modelled from the spec: outcome of `try_execute_task` (spec section 4.2). -/
inductive ExecutionOutcome
  | TaskCompleted
  | EmptyQueue
  deriving DecidableEq

/-- Result of one call to the external notification sender: success, or a
transient (retryable) failure (spec section 6, notification sender). -/
inductive SendResult
  | success
  | transientFailure
  deriving DecidableEq

/-- A queue row is eligible for claiming when its `execute_after` is null or
has passed (spec section 4.2: `execute_after <= now`). -/
def eligible (now : Nat) (r : QueueRow) : Bool :=
  match r.execute_after with
  | none => true
  | some t => decide (t ≤ now)

/-- Splits the queue at its first eligible row, in insertion order:
`some (before, row, after)` with the queue equal to
`before ++ [row] ++ after` and no eligible row in `before`. -/
def claimRow (now : Nat) : List QueueRow →
    Option (List QueueRow × QueueRow × List QueueRow)
  | [] => none
  | r :: rest =>
    if eligible now r then
      some ([], r, rest)
    else
      match claimRow now rest with
      | none => none
      | some (before, row, after) => some (r :: before, row, after)

/-- Confirmation status of the subscription holding this email, if any. -/
def subscriber_status (db : DB) (email : String) : Option String :=
  (db.subscriptions.find? (fun s => s.email == email)).map (fun s => s.status)

/-- Modelled from the spec: exponential backoff window, in seconds, after
`n_retries` failed attempts (spec section 4.2). -/
def backoff (n_retries : Nat) : Nat := 2 ^ n_retries

/-- Modelled from the spec: the delivery worker's `try_execute_task` (spec
section 4.2); the worker module is not among the provided sources.  Claims
one eligible row or returns `EmptyQueue`; skips (deletes) rows of
unconfirmed subscribers without sending; otherwise invokes the sender
(logged in `sent`), deleting the row on success, deleting it as dead-letter
on transient failure once `n_retries` has reached `maxRetries`, and
otherwise committing it back with `n_retries` incremented and
`execute_after` pushed out by the exponential backoff. -/
def try_execute_task (send : String → SendResult) (maxRetries now : Nat)
    (db : DB) : ExecutionOutcome × DB :=
  match claimRow now db.issue_delivery_queue with
  | none => (ExecutionOutcome.EmptyQueue, db)
  | some (before, row, after) =>
    if subscriber_status db row.subscriber_email == some "confirmed" then
      let db := { db with sent := db.sent ++
        [(row.newsletter_issue_id, row.subscriber_email)] }
      match send row.subscriber_email with
      | SendResult.success =>
          (ExecutionOutcome.TaskCompleted,
           { db with issue_delivery_queue := before ++ after })
      | SendResult.transientFailure =>
          if maxRetries ≤ row.n_retries then
            (ExecutionOutcome.TaskCompleted,
             { db with issue_delivery_queue := before ++ after })
          else
            let row2 : QueueRow :=
              { row with n_retries := row.n_retries + 1
                         execute_after := some (now + backoff row.n_retries) }
            (ExecutionOutcome.TaskCompleted,
             { db with issue_delivery_queue := (before ++ ([row2] ++ after)) })
    else
      (ExecutionOutcome.TaskCompleted,
       { db with issue_delivery_queue := before ++ after })

/-- Repeatedly calls `try_execute_task` until it reports `EmptyQueue` or the
fuel runs out, as `dispatch_all_pending_emails` loops in the test helpers. -/
def drain (send : String → SendResult) (maxRetries now : Nat) :
    Nat → DB → DB
  | 0, db => db
  | fuel + 1, db =>
    match try_execute_task send maxRetries now db with
    | (ExecutionOutcome.EmptyQueue, db) => db
    | (ExecutionOutcome.TaskCompleted, db) => drain send maxRetries now fuel db

/-- Runs one `try_execute_task` step per listed clock value, modelling an
arbitrary future schedule of worker polls. -/
def runSteps (send : String → SendResult) (maxRetries : Nat) :
    List Nat → DB → DB
  | [], db => db
  | now :: rest, db =>
      runSteps send maxRetries rest (try_execute_task send maxRetries now db).2

/-! ## Definitions supporting the claims and their witnesses -/

/-- The row committed back after a transient failure below the retry cap:
retry counter incremented, next attempt pushed out by the backoff window. -/
def retriedRow (now : Nat) (row : QueueRow) : QueueRow :=
  { row with n_retries := row.n_retries + 1
             execute_after := some (now + backoff row.n_retries) }

/-- Membership predicate for the idempotency unique key. -/
@[reducible] def idemPred (user_id : Nat) (key : String) : IdempotencyRow → Bool :=
  fun row => row.user_id == user_id && row.idempotency_key == key

/-- The state the publish endpoint commits on success: `published_at` set on
the owner's issue, one queue row per confirmed subscription of the owner,
and the saved response finalized under `(user_id, key)`. -/
def publishSuccessDB (db : DB) (user_id newsletter_issue_id : Nat)
    (key : String) (now : Nat) : DB :=
  { db with
      issues := db.issues.map (fun i =>
        if i.newsletter_issue_id == newsletter_issue_id
            && i.user_id == user_id then
          { i with published_at := some now }
        else i)
      idempotency := (db.idempotency ++
        [({ user_id := user_id, idempotency_key := key,
            response := some successResponse } : IdempotencyRow)])
      issue_delivery_queue := (db.issue_delivery_queue ++
        ((db.subscriptions.filter (fun s =>
            s.status == "confirmed" && s.user_id == user_id)).map
          (fun s => freshQueueRow newsletter_issue_id s.email))) }

/-- The validity condition of claim C10 as literally stated: content not
empty or whitespace-only; description non-empty, at most 200 grapheme
clusters, no forbidden character; title non-empty, at most 70 grapheme
clusters, no forbidden character. -/
def claimedPublishValid (i : NewsletterIssue) : Bool :=
  !is_empty_or_whitespace i.content
  && (!i.description.isEmpty && !is_too_long i.description 200
      && !contains_forbidden_characters i.description)
  && (!i.title.isEmpty && !is_too_long i.title 70
      && !contains_forbidden_characters i.title)

/-- The amended validity condition: as claimed, but description and title
must also not be whitespace-only (matching `is_empty_or_whitespace`). -/
def correctedPublishValid (i : NewsletterIssue) : Bool :=
  !is_empty_or_whitespace i.content
  && (!is_empty_or_whitespace i.description && !is_too_long i.description 200
      && !contains_forbidden_characters i.description)
  && (!is_empty_or_whitespace i.title && !is_too_long i.title 70
      && !contains_forbidden_characters i.title)

/-- A publishable issue whose description is a single space: non-empty, one
grapheme cluster, no forbidden character, yet whitespace-only. -/
def issueC10 : NewsletterIssue :=
  { content := [['a']], cover_image_url := "", created_at := 0,
    description := [[' ']], newsletter_issue_id := 7, published_at := none,
    slug := "", title := [['t']], user_id := 1 }

/-- One user (id 1) owning one unpublished, publishable issue (id 7). -/
def exIssue : NewsletterIssue :=
  { content := [['a']], cover_image_url := "", created_at := 0,
    description := [['d']], newsletter_issue_id := 7, published_at := none,
    slug := "", title := [['t']], user_id := 1 }

/-- A confirmed subscriber of user 1. -/
def exSub : Subscription :=
  { email := "s@example.com", status := "confirmed", user_id := 1 }

/-- Fresh store: the issue, its confirmed subscriber, nothing else. -/
def exDB : DB :=
  { issues := [exIssue], subscriptions := [exSub], idempotency := [],
    issue_delivery_queue := [], sent := [] }

/-- A confirmed subscriber of a different user (id 2). -/
def subOther : Subscription :=
  { email := "bob@example.com", status := "confirmed", user_id := 2 }

/-- Store for the C5 failing input: user 1 owns the issue, while the only
subscription is user 2's confirmed subscriber. -/
def dbC5 : DB :=
  { issues := [exIssue], subscriptions := [subOther], idempotency := [],
    issue_delivery_queue := [], sent := [] }

/-- Always-failing notification sender, used by the C6 witness. -/
def sendFail : String → SendResult := fun _ => SendResult.transientFailure

/-- Always-succeeding notification sender (the tests' 200 mock). -/
def sendOk : String → SendResult := fun _ => SendResult.success

/-- A freshly enqueued delivery row for user 1's subscriber. -/
def rowW : QueueRow :=
  { newsletter_issue_id := 7, subscriber_email := "s@example.com",
    n_retries := 0, execute_after := none }

/-- Store holding one pending delivery row for a confirmed subscriber. -/
def dbW : DB :=
  { issues := [exIssue], subscriptions := [exSub], idempotency := [],
    issue_delivery_queue := [rowW], sent := [] }

/-- An unconfirmed subscription and a delivery row addressed to it. -/
def subUnconf : Subscription :=
  { email := "u@example.com", status := "pending_confirmation", user_id := 1 }

def rowU : QueueRow :=
  { newsletter_issue_id := 7, subscriber_email := "u@example.com",
    n_retries := 0, execute_after := none }

def dbU : DB :=
  { issues := [exIssue], subscriptions := [subUnconf], idempotency := [],
    issue_delivery_queue := [rowU], sent := [] }

/-! ## Helper lemmas -/

theorem IdempotencyKey.try_from_ok_eq {s k : String}
    (h : IdempotencyKey.try_from s = Except.ok k) : k = s := by
  unfold IdempotencyKey.try_from at h
  split at h
  · exact absurd h (by simp)
  · split at h
    · exact absurd h (by simp)
    · exact (Except.ok.inj h).symm

theorem content_parse_ok_eq {s v : GStr} (h : Content.parse s = Except.ok v) :
    v = s := by
  unfold Content.parse at h
  split at h
  · exact absurd h (by simp)
  · exact (Except.ok.inj h).symm

theorem description_parse_ok_eq {s v : GStr}
    (h : Description.parse s = Except.ok v) : v = s := by
  unfold Description.parse at h
  split at h
  · exact absurd h (by simp)
  · split at h
    · exact absurd h (by simp)
    · split at h
      · exact absurd h (by simp)
      · exact (Except.ok.inj h).symm

theorem title_parse_ok_eq {s v : GStr} (h : Title.parse s = Except.ok v) :
    v = s := by
  unfold Title.parse at h
  split at h
  · exact absurd h (by simp)
  · split at h
    · exact absurd h (by simp)
    · split at h
      · exact absurd h (by simp)
      · exact (Except.ok.inj h).symm

theorem validate_for_publish_ok_eq {i v : NewsletterIssue}
    (h : i.validate_for_publish = Except.ok v) : v = i := by
  unfold NewsletterIssue.validate_for_publish at h
  cases hc : Content.parse i.content with
  | error e => rw [hc] at h; exact absurd h (by simp)
  | ok c =>
    rw [hc] at h
    cases hd : Description.parse i.description with
    | error e => rw [hd] at h; exact absurd h (by simp)
    | ok d =>
      rw [hd] at h
      cases ht : Title.parse i.title with
      | error e => rw [ht] at h; exact absurd h (by simp)
      | ok t =>
        rw [ht] at h
        rw [content_parse_ok_eq hc, description_parse_ok_eq hd,
            title_parse_ok_eq ht] at h
        exact (Except.ok.inj h).symm

theorem find_issue_ids {issues : List NewsletterIssue}
    {uid iid : Nat} {issue : NewsletterIssue}
    (h : find_by_user_id_and_newsletter_issue_id issues uid iid = some issue) :
    issue.user_id = uid ∧ issue.newsletter_issue_id = iid := by
  have hp := List.find?_some h
  simp only [Bool.and_eq_true, beq_iff_eq] at hp
  exact ⟨hp.1, hp.2⟩

theorem idem_map_id {l : List IdempotencyRow} {uid : Nat} {key : String}
    (r : HttpResponse) (h : l.find? (idemPred uid key) = none) :
    (l.map (fun row => if row.user_id == uid && row.idempotency_key == key then
        { row with response := some r } else row)) = l := by
  have hall := List.find?_eq_none.mp h
  have hpt : ∀ row ∈ l,
      (if row.user_id == uid && row.idempotency_key == key then
        ({ row with response := some r } : IdempotencyRow) else row) = id row := by
    intro row hrow
    have hfalse : (row.user_id == uid && row.idempotency_key == key) = false := by
      simpa [idemPred] using hall row hrow
    simp [hfalse]
  rw [List.map_congr_left hpt, List.map_id]

theorem findIdemRow?_success {db : DB} {uid : Nat} {key : String}
    (r : HttpResponse) (h : findIdemRow? db uid key = none) :
    ((db.idempotency ++
        [({ user_id := uid, idempotency_key := key, response := some r } :
          IdempotencyRow)]).find? (idemPred uid key)) =
      some ({ user_id := uid, idempotency_key := key, response := some r } :
        IdempotencyRow) := by
  unfold findIdemRow? at h
  rw [List.find?_append]
  have h' : db.idempotency.find? (idemPred uid key) = none := h
  rw [h']
  simp [idemPred]

theorem put_success {db : DB} {uid iid : Nat} {key : String} {now : Nat}
    {issue : NewsletterIssue}
    (hkey : IdempotencyKey.try_from key = Except.ok key)
    (hnorow : findIdemRow? db uid key = none)
    (hfind : find_by_user_id_and_newsletter_issue_id db.issues uid iid
      = some issue)
    (hval : issue.validate_for_publish = Except.ok issue) :
    put db uid iid key now =
      (successResponse, publishSuccessDB db uid iid key now) := by
  obtain ⟨hu, hi⟩ := find_issue_ids hfind
  have hmap := @idem_map_id db.idempotency uid key successResponse hnorow
  unfold idemPred at hmap
  unfold put
  rw [hkey]
  simp only []
  unfold try_processing
  rw [hnorow]
  simp only []
  simp only [find_by_user_id_and_newsletter_issue_id] at hfind
  simp only [find_by_user_id_and_newsletter_issue_id, hfind, hval]
  unfold NewsletterIssue.publish_newsletter enqueue_delivery_tasks save_response
  simp only [List.map_append]
  simp [publishSuccessDB, hu, hi]
  simpa using hmap

theorem put_replay {db : DB} {uid iid : Nat} {key : String} {now : Nat}
    {r : HttpResponse}
    (hkey : IdempotencyKey.try_from key = Except.ok key)
    (hrow : findIdemRow? db uid key =
      some ({ user_id := uid, idempotency_key := key, response := some r } :
        IdempotencyRow)) :
    put db uid iid key now = (r, db) := by
  unfold put
  rw [hkey]
  simp only []
  unfold try_processing
  rw [hrow]

theorem findIdemRow?_publishSuccess {db : DB} {uid iid : Nat} {key : String}
    {now : Nat} (hnorow : findIdemRow? db uid key = none) :
    findIdemRow? (publishSuccessDB db uid iid key now) uid key =
      some ({ user_id := uid, idempotency_key := key,
              response := some successResponse } : IdempotencyRow) := by
  unfold findIdemRow? publishSuccessDB
  exact findIdemRow?_success successResponse hnorow

theorem put_total (db : DB) (uid iid : Nat) (key : String) (now : Nat)
    (hnorow : findIdemRow? db uid key = none) :
    ((put db uid iid key now).2 = db ∧ (put db uid iid key now).1.status ≠ 200)
    ∨ (put db uid iid key now =
        (successResponse, publishSuccessDB db uid iid key now)
        ∧ (∃ issue, find_by_user_id_and_newsletter_issue_id db.issues uid iid
              = some issue
            ∧ issue.validate_for_publish = Except.ok issue)) := by
  cases hkey : IdempotencyKey.try_from key with
  | error e =>
      left
      unfold put
      rw [hkey]
      exact ⟨rfl, by simp [e400]⟩
  | ok k =>
      have hk := IdempotencyKey.try_from_ok_eq hkey
      subst hk
      cases hfind : find_by_user_id_and_newsletter_issue_id db.issues uid iid with
      | none =>
          left
          unfold put
          rw [hkey]
          simp only []
          unfold try_processing
          rw [hnorow]
          simp only []
          unfold find_by_user_id_and_newsletter_issue_id at hfind ⊢
          rw [hfind]
          exact ⟨rfl, by simp [e404]⟩
      | some issue =>
          cases hval : issue.validate_for_publish with
          | error e =>
              left
              unfold put
              rw [hkey]
              simp only []
              unfold try_processing
              rw [hnorow]
              simp only []
              unfold find_by_user_id_and_newsletter_issue_id at hfind ⊢
              rw [hfind]
              simp only []
              rw [hval]
              exact ⟨rfl, by simp [e400]⟩
          | ok v =>
              right
              have hv := validate_for_publish_ok_eq hval
              subst hv
              exact ⟨put_success hkey hnorow hfind hval, ⟨v, rfl, hval⟩⟩

theorem claimRow_eq {now : Nat} :
    ∀ {q before after : List QueueRow} {row : QueueRow},
    claimRow now q = some (before, row, after) →
    q = before ++ row :: after ∧ eligible now row = true := by
  intro q
  induction q with
  | nil => intro b a r h; exact absurd h (by simp [claimRow])
  | cons r0 rest ih =>
    intro b r a h
    unfold claimRow at h
    by_cases he : eligible now r0
    · rw [if_pos he] at h
      simp only [Option.some.injEq, Prod.mk.injEq] at h
      obtain ⟨h1, h2, h3⟩ := h
      subst h1; subst h2; subst h3
      exact ⟨rfl, he⟩
    · rw [if_neg he] at h
      cases hrec : claimRow now rest with
      | none => rw [hrec] at h; exact absurd h (by simp)
      | some t =>
        obtain ⟨b2, r2, a2⟩ := t
        rw [hrec] at h
        simp only [Option.some.injEq, Prod.mk.injEq] at h
        obtain ⟨h1, h2, h3⟩ := h
        subst h1; subst h2; subst h3
        obtain ⟨hq, helig⟩ := ih hrec
        exact ⟨by rw [hq]; simp, helig⟩

theorem claimRow_none {now : Nat} :
    ∀ {q : List QueueRow}, claimRow now q = none →
    ∀ r ∈ q, eligible now r = false := by
  intro q
  induction q with
  | nil => intro _ r hr; exact absurd hr (by simp)
  | cons r0 rest ih =>
    intro h r hr
    unfold claimRow at h
    by_cases he : eligible now r0
    · rw [if_pos he] at h; exact absurd h (by simp)
    · rw [if_neg he] at h
      cases hrec : claimRow now rest with
      | none =>
        rcases List.mem_cons.mp hr with heq | hmem
        · subst heq; simpa using he
        · exact ih hrec r hmem
      | some t =>
        obtain ⟨b2, r2, a2⟩ := t
        rw [hrec] at h
        exact absurd h (by simp)

theorem step_unconfirmed {send : String → SendResult} {maxRetries now : Nat}
    {db : DB} {before after : List QueueRow} {row : QueueRow}
    (hclaim : claimRow now db.issue_delivery_queue = some (before, row, after))
    (hconf : ¬ subscriber_status db row.subscriber_email = some "confirmed") :
    try_execute_task send maxRetries now db =
      (ExecutionOutcome.TaskCompleted,
       { db with issue_delivery_queue := before ++ after }) := by
  have hb : (subscriber_status db row.subscriber_email == some "confirmed")
      = false := by simpa using hconf
  unfold try_execute_task
  rw [hclaim]
  simp only []
  rw [hb]
  simp

theorem step_confirmed_success {send : String → SendResult}
    {maxRetries now : Nat} {db : DB} {before after : List QueueRow}
    {row : QueueRow}
    (hclaim : claimRow now db.issue_delivery_queue = some (before, row, after))
    (hconf : subscriber_status db row.subscriber_email = some "confirmed")
    (hsend : send row.subscriber_email = SendResult.success) :
    try_execute_task send maxRetries now db =
      (ExecutionOutcome.TaskCompleted,
       { db with
           issue_delivery_queue := before ++ after
           sent := (db.sent ++
             [(row.newsletter_issue_id, row.subscriber_email)]) }) := by
  unfold try_execute_task
  rw [hclaim]
  simp only []
  rw [hconf]
  simp [hsend]

theorem step_dead_letter {send : String → SendResult} {maxRetries now : Nat}
    {db : DB} {before after : List QueueRow} {row : QueueRow}
    (hclaim : claimRow now db.issue_delivery_queue = some (before, row, after))
    (hconf : subscriber_status db row.subscriber_email = some "confirmed")
    (hsend : send row.subscriber_email = SendResult.transientFailure)
    (hmax : maxRetries ≤ row.n_retries) :
    try_execute_task send maxRetries now db =
      (ExecutionOutcome.TaskCompleted,
       { db with
           issue_delivery_queue := before ++ after
           sent := (db.sent ++
             [(row.newsletter_issue_id, row.subscriber_email)]) }) := by
  unfold try_execute_task
  rw [hclaim]
  simp only []
  rw [hconf]
  simp [hsend, hmax]

theorem step_retry {send : String → SendResult} {maxRetries now : Nat}
    {db : DB} {before after : List QueueRow} {row : QueueRow}
    (hclaim : claimRow now db.issue_delivery_queue = some (before, row, after))
    (hconf : subscriber_status db row.subscriber_email = some "confirmed")
    (hsend : send row.subscriber_email = SendResult.transientFailure)
    (hmax : ¬ maxRetries ≤ row.n_retries) :
    try_execute_task send maxRetries now db =
      (ExecutionOutcome.TaskCompleted,
       { db with
           issue_delivery_queue := (before ++ ([retriedRow now row] ++ after))
           sent := (db.sent ++
             [(row.newsletter_issue_id, row.subscriber_email)]) }) := by
  unfold try_execute_task
  rw [hclaim]
  simp only []
  rw [hconf]
  simp [hsend, hmax, retriedRow]

theorem step_preserves_count {send : String → SendResult}
    {maxRetries now : Nat} {db : DB} {p : Nat × String}
    (hqueue : ∀ r ∈ db.issue_delivery_queue,
      (r.newsletter_issue_id, r.subscriber_email) ≠ p) :
    (try_execute_task send maxRetries now db).2.sent.count p = db.sent.count p
    ∧ (∀ r ∈ (try_execute_task send maxRetries now db).2.issue_delivery_queue,
        (r.newsletter_issue_id, r.subscriber_email) ≠ p) := by
  cases hclaim : claimRow now db.issue_delivery_queue with
  | none =>
    have hstep : try_execute_task send maxRetries now db =
        (ExecutionOutcome.EmptyQueue, db) := by
      unfold try_execute_task; rw [hclaim]
    rw [hstep]
    exact ⟨rfl, hqueue⟩
  | some t =>
    obtain ⟨before, row, after⟩ := t
    obtain ⟨hq, _⟩ := claimRow_eq hclaim
    have hmem : ∀ r, r ∈ before ∨ r ∈ after → r ∈ db.issue_delivery_queue := by
      intro r hr
      rw [hq]
      rcases hr with h | h
      · exact List.mem_append.mpr (Or.inl h)
      · exact List.mem_append.mpr (Or.inr (List.mem_cons_of_mem _ h))
    have hrowmem : row ∈ db.issue_delivery_queue := by rw [hq]; simp
    have hrowp := hqueue row hrowmem
    have hcnt : (db.sent ++
        [(row.newsletter_issue_id, row.subscriber_email)]).count p =
        db.sent.count p := by
      rw [List.count_append]
      have h0 : ([(row.newsletter_issue_id, row.subscriber_email)] :
          List (Nat × String)).count p = 0 := by
        rw [List.count_eq_zero]
        intro hp
        exact hrowp (List.mem_singleton.mp hp).symm
      rw [h0, Nat.add_zero]
    by_cases hc : subscriber_status db row.subscriber_email = some "confirmed"
    · cases hsr : send row.subscriber_email with
      | success =>
        rw [step_confirmed_success hclaim hc hsr]
        refine ⟨hcnt, ?_⟩
        intro r hr
        exact hqueue r (hmem r (List.mem_append.mp hr))
      | transientFailure =>
        by_cases hm : maxRetries ≤ row.n_retries
        · rw [step_dead_letter hclaim hc hsr hm]
          refine ⟨hcnt, ?_⟩
          intro r hr
          exact hqueue r (hmem r (List.mem_append.mp hr))
        · rw [step_retry hclaim hc hsr hm]
          refine ⟨hcnt, ?_⟩
          intro r hr
          rcases List.mem_append.mp hr with h | h
          · exact hqueue r (hmem r (Or.inl h))
          · rcases List.mem_append.mp h with h2 | h2
            · have hres : r = retriedRow now row := List.mem_singleton.mp h2
              subst hres
              simpa [retriedRow] using hrowp
            · exact hqueue r (hmem r (Or.inr h2))
    · rw [step_unconfirmed hclaim hc]
      refine ⟨rfl, ?_⟩
      intro r hr
      exact hqueue r (hmem r (List.mem_append.mp hr))

theorem runSteps_preserves_count (send : String → SendResult)
    (maxRetries : Nat) :
    ∀ (steps : List Nat) (db : DB) (p : Nat × String),
    (∀ r ∈ db.issue_delivery_queue,
      (r.newsletter_issue_id, r.subscriber_email) ≠ p) →
    (runSteps send maxRetries steps db).sent.count p = db.sent.count p := by
  intro steps
  induction steps with
  | nil => intro db p _; rfl
  | cons now rest ih =>
    intro db p hqueue
    obtain ⟨h1, h2⟩ := @step_preserves_count send maxRetries now db p hqueue
    calc (runSteps send maxRetries (now :: rest) db).sent.count p
        = (runSteps send maxRetries rest
            (try_execute_task send maxRetries now db).2).sent.count p := rfl
      _ = (try_execute_task send maxRetries now db).2.sent.count p :=
          ih (try_execute_task send maxRetries now db).2 p h2
      _ = db.sent.count p := h1

theorem drain_succ (send : String → SendResult) (maxRetries now fuel : Nat)
    (db : DB) :
    drain send maxRetries now (fuel + 1) db =
      (match try_execute_task send maxRetries now db with
        | (ExecutionOutcome.EmptyQueue, db2) => db2
        | (ExecutionOutcome.TaskCompleted, db2) =>
            drain send maxRetries now fuel db2) := rfl

theorem drain_all_confirmed {send : String → SendResult}
    (maxRetries now : Nat) (hsend : ∀ e, send e = SendResult.success) :
    ∀ (q : List QueueRow) (db : DB),
    db.issue_delivery_queue = q →
    (∀ r ∈ q, eligible now r = true) →
    (∀ r ∈ q, subscriber_status db r.subscriber_email = some "confirmed") →
    (drain send maxRetries now (q.length + 1) db).issue_delivery_queue = []
    ∧ (drain send maxRetries now (q.length + 1) db).sent.length =
        db.sent.length + q.length := by
  intro q
  induction q with
  | nil =>
    intro db hq _ _
    have hclaim : claimRow now db.issue_delivery_queue = none := by
      rw [hq]; rfl
    have hstep : try_execute_task send maxRetries now db =
        (ExecutionOutcome.EmptyQueue, db) := by
      unfold try_execute_task; rw [hclaim]
    rw [drain_succ, hstep]
    exact ⟨hq, by simp⟩
  | cons r rest ih =>
    intro db hq helig hconf
    have her : eligible now r = true := helig r (by simp)
    have hclaim : claimRow now db.issue_delivery_queue =
        some ([], r, rest) := by
      rw [hq]; unfold claimRow; rw [if_pos her]
    have hstep := @step_confirmed_success send maxRetries now db [] rest r
      hclaim (hconf r (by simp)) (hsend r.subscriber_email)
    have hnext := ih
      { db with
          issue_delivery_queue := [] ++ rest
          sent := (db.sent ++
            [(r.newsletter_issue_id, r.subscriber_email)]) }
      rfl
      (fun r2 h2 => helig r2 (List.mem_cons_of_mem _ (by simpa using h2)))
      (fun r2 h2 => hconf r2 (List.mem_cons_of_mem _ (by simpa using h2)))
    rw [List.length_cons, drain_succ, hstep]
    simp only []
    refine ⟨hnext.1, ?_⟩
    rw [hnext.2]
    simp
    omega
  

/-! ## Claim theorems, counterexamples and witnesses -/

/-- Claim C1: for a valid key with no prior idempotency row and a valid
owned issue, calling the publish endpoint twice sequentially yields the
same response both times, the second call leaves the state untouched and
takes the ReturnSavedResponse branch of `try_processing`, and the mutation
(setting `published_at`, inserting the delivery-queue rows) happened in the
first call only. -/
theorem claim_C1_publish_idempotent {db : DB} {uid iid : Nat} {key : String}
    {now now2 : Nat} {issue : NewsletterIssue}
    (hkey : IdempotencyKey.try_from key = Except.ok key)
    (hnorow : findIdemRow? db uid key = none)
    (hfind : find_by_user_id_and_newsletter_issue_id db.issues uid iid
      = some issue)
    (hval : issue.validate_for_publish = Except.ok issue) :
    (put (put db uid iid key now).2 uid iid key now2).1 =
        (put db uid iid key now).1
    ∧ (put (put db uid iid key now).2 uid iid key now2).2 =
        (put db uid iid key now).2
    ∧ try_processing (put db uid iid key now).2 key uid =
        some (NextAction.ReturnSavedResponse (put db uid iid key now).1)
    ∧ (put db uid iid key now).2.issues =
        db.issues.map (fun i =>
          if i.newsletter_issue_id == iid && i.user_id == uid then
            { i with published_at := some now }
          else i)
    ∧ (put db uid iid key now).2.issue_delivery_queue =
        (db.issue_delivery_queue ++
          ((db.subscriptions.filter (fun s =>
              s.status == "confirmed" && s.user_id == uid)).map
            (fun s => freshQueueRow iid s.email))) := by
  have h1 := @put_success db uid iid key now issue hkey hnorow hfind hval
  have hrow := @findIdemRow?_publishSuccess db uid iid key now hnorow
  have h2 := @put_replay (publishSuccessDB db uid iid key now) uid iid key now2
    successResponse hkey hrow
  rw [h1]
  simp only []
  refine ⟨by rw [h2], by rw [h2], ?_, ?_, ?_⟩
  · simp [try_processing, hrow]
  · simp [publishSuccessDB]
  · simp [publishSuccessDB]

/-- Claim C1 witness: the idempotence theorem at the concrete scenario. -/
theorem claim_C1_witness :
    (put (put exDB 1 7 "key-1" 5).2 1 7 "key-1" 9).1 =
        (put exDB 1 7 "key-1" 5).1
    ∧ (put (put exDB 1 7 "key-1" 5).2 1 7 "key-1" 9).2 =
        (put exDB 1 7 "key-1" 5).2
    ∧ try_processing (put exDB 1 7 "key-1" 5).2 "key-1" 1 =
        some (NextAction.ReturnSavedResponse (put exDB 1 7 "key-1" 5).1) := by
  have h := @claim_C1_publish_idempotent exDB 1 7 "key-1" 5 9 exIssue
    (by decide) (by decide) (by decide) (by decide)
  exact ⟨h.1, h.2.1, h.2.2.1⟩

/-- Claim C3: when processing starts (no prior row for the pair), the
publish endpoint is all-or-nothing: either it fails, the state is exactly
the original one and the key is still unreserved (usable on retry), or it
succeeds and the `published_at` update, the delivery-queue inserts and the
finalized saved response all become visible together. -/
theorem claim_C3_publish_atomic {db : DB} {uid iid : Nat} {key : String}
    {now : Nat} (hnorow : findIdemRow? db uid key = none) :
    ((put db uid iid key now).2 = db
      ∧ findIdemRow? (put db uid iid key now).2 uid key = none)
    ∨ ((put db uid iid key now).1 = successResponse
      ∧ (put db uid iid key now).2 = publishSuccessDB db uid iid key now
      ∧ findIdemRow? (put db uid iid key now).2 uid key =
          some ({ user_id := uid, idempotency_key := key,
                  response := some successResponse } : IdempotencyRow)) := by
  rcases put_total db uid iid key now hnorow with ⟨h2, _⟩ | ⟨heq, _⟩
  · exact Or.inl ⟨h2, by rw [h2]; exact hnorow⟩
  · right
    refine ⟨by rw [heq], by rw [heq], ?_⟩
    rw [heq]
    simp only []
    exact @findIdemRow?_publishSuccess db uid iid key now hnorow

/-- Claim C3 witness: the atomicity theorem at the concrete scenario. -/
theorem claim_C3_witness :
    ((put exDB 1 7 "key-1" 5).2 = exDB
      ∧ findIdemRow? (put exDB 1 7 "key-1" 5).2 1 "key-1" = none)
    ∨ ((put exDB 1 7 "key-1" 5).1 = successResponse
      ∧ (put exDB 1 7 "key-1" 5).2 = publishSuccessDB exDB 1 7 "key-1" 5
      ∧ findIdemRow? (put exDB 1 7 "key-1" 5).2 1 "key-1" =
          some ({ user_id := 1, idempotency_key := "key-1",
                  response := some successResponse } : IdempotencyRow)) :=
  @claim_C3_publish_atomic exDB 1 7 "key-1" 5 (by decide)

/-- Claim C4: a malformed idempotency key (empty, or longer than 50
characters) makes the endpoint answer a 400 client error with the state
unchanged — the key check precedes `try_processing`, so no transaction is
begun and no idempotency row exists afterwards — and every well-formed key
(non-empty, length at most 50) passes the constructor. -/
theorem claim_C4_key_validation (db : DB) (uid iid : Nat) (key : String)
    (now : Nat) :
    ((key.isEmpty = true ∨ 50 < key.length) →
      ((put db uid iid key now).1.status = 400
        ∧ (put db uid iid key now).2 = db))
    ∧ ((key.isEmpty = false ∧ key.length ≤ 50) →
      IdempotencyKey.try_from key = Except.ok key) := by
  constructor
  · intro hbad
    obtain ⟨e, he⟩ : ∃ e, IdempotencyKey.try_from key = Except.error e := by
      unfold IdempotencyKey.try_from
      by_cases h0 : key.isEmpty
      · exact ⟨"The idempotency key cannot be empty.", by simp [h0]⟩
      · cases hbad with
        | inl h => exact absurd h (by simpa using h0)
        | inr h =>
            exact ⟨"The idempotency key must be no longer than 50 characters.",
              by simp [h0, h]⟩
    unfold put
    rw [he]
    exact ⟨rfl, rfl⟩
  · rintro ⟨h0, h1⟩
    unfold IdempotencyKey.try_from
    simp [h0, Nat.not_lt.mpr h1]

/-- Claim C4 witness: the empty key is rejected with 400 and no state
change at the concrete scenario, and a well-formed key is accepted. -/
theorem claim_C4_witness :
    ((put exDB 1 7 "" 5).1.status = 400 ∧ (put exDB 1 7 "" 5).2 = exDB)
    ∧ IdempotencyKey.try_from "key-1" = Except.ok "key-1" :=
  ⟨(claim_C4_key_validation exDB 1 7 "" 5).1 (Or.inl (by decide)),
   (claim_C4_key_validation exDB 1 7 "key-1" 5).2 ⟨by decide, by decide⟩⟩

/-- Claim C5: the detail publish route's fan-out inserts exactly one row per
subscription that is confirmed and belongs to the issue's owning user
(membership and count characterization), whereas the create-and-publish
route's fan-out (`routes/admin/newsletters/index.rs`) has no user filter: at
the concrete failing input it inserts a row for another user's confirmed
subscriber — rows the claim and the spec forbid — while the owner-filtered
fan-out correctly inserts none. -/
theorem claim_C5_enqueue_rows :
    (∀ (txn : DB) (iid uid : Nat) (r : QueueRow),
        (r ∈ (enqueue_delivery_tasks txn iid uid).issue_delivery_queue ↔
          (r ∈ txn.issue_delivery_queue
            ∨ ∃ s ∈ txn.subscriptions, s.status = "confirmed"
                ∧ s.user_id = uid ∧ r = freshQueueRow iid s.email)))
    ∧ (∀ (txn : DB) (iid uid : Nat),
        (enqueue_delivery_tasks txn iid uid).issue_delivery_queue.length =
          txn.issue_delivery_queue.length +
            txn.subscriptions.countP (fun s =>
              decide (s.status = "confirmed" ∧ s.user_id = uid)))
    ∧ ((enqueue_delivery_tasks dbC5 7 1).issue_delivery_queue = [])
    ∧ ((enqueue_delivery_tasks_all_subscribers dbC5 7).issue_delivery_queue =
        [freshQueueRow 7 "bob@example.com"]) := by
  refine ⟨?_, ?_, by decide, by decide⟩
  · intro txn iid uid r
    simp only [enqueue_delivery_tasks, List.mem_append, List.mem_map,
      List.mem_filter, Bool.and_eq_true, beq_iff_eq]
    constructor
    · rintro (hq | ⟨s, ⟨hs, hstat, huser⟩, hr⟩)
      · exact Or.inl hq
      · exact Or.inr ⟨s, hs, hstat, huser, hr.symm⟩
    · rintro (hq | ⟨s, hs, hstat, huser, hr⟩)
      · exact Or.inl hq
      · exact Or.inr ⟨s, ⟨hs, hstat, huser⟩, hr.symm⟩
  · intro txn iid uid
    have hpred : (fun s : Subscription =>
        s.status == "confirmed" && s.user_id == uid) =
        (fun s => decide (s.status = "confirmed" ∧ s.user_id = uid)) := by
      funext s
      by_cases h1 : s.status = "confirmed" <;>
        by_cases h2 : s.user_id = uid <;> simp [h1, h2]
    simp [enqueue_delivery_tasks, List.countP_eq_length_filter, hpred]

/-- Claim C5 witness: membership in the owner-filtered fan-out, evaluated
at the concrete scenario of user 1 with their own confirmed subscriber. -/
theorem claim_C5_witness :
    freshQueueRow 7 "s@example.com" ∈
        (enqueue_delivery_tasks exDB 7 1).issue_delivery_queue ↔
      (freshQueueRow 7 "s@example.com" ∈ exDB.issue_delivery_queue
        ∨ ∃ s ∈ exDB.subscriptions, s.status = "confirmed"
            ∧ s.user_id = 1
            ∧ freshQueueRow 7 "s@example.com" = freshQueueRow 7 s.email) :=
  claim_C5_enqueue_rows.1 exDB 7 1 (freshQueueRow 7 "s@example.com")

/-- Claim C6: when the claimed row's confirmed subscriber send fails
transiently, the worker increments `n_retries` by one and pushes
`execute_after` out by the exponential backoff, keeping the row and leaving
it claimable at any time past the backoff window; when `n_retries` has
already reached the configured maximum, the row is deleted instead
(dead-letter).  Afterwards no send attempt for the dead-lettered row ever
occurs: the worker never inserts rows, so while no queue row carries a
`(issue, email)` pair, the pair's send count stays fixed over every future
sequence of worker steps — in particular, once the dead-lettered row (the
only one for its pair) is deleted, the pair's send count never grows past
the attempts already logged. -/
theorem claim_C6_retry_and_dead_letter {send : String → SendResult}
    {maxRetries now : Nat} {db : DB} {before after : List QueueRow}
    {row : QueueRow}
    (hclaim : claimRow now db.issue_delivery_queue = some (before, row, after))
    (hconf : subscriber_status db row.subscriber_email = some "confirmed")
    (hsendf : send row.subscriber_email = SendResult.transientFailure) :
    (row.n_retries < maxRetries →
      (try_execute_task send maxRetries now db =
        (ExecutionOutcome.TaskCompleted,
         { db with
             issue_delivery_queue := (before ++ ([retriedRow now row] ++ after))
             sent := (db.sent ++
               [(row.newsletter_issue_id, row.subscriber_email)]) })
      ∧ (retriedRow now row).n_retries = row.n_retries + 1
      ∧ ∀ later, now + backoff row.n_retries ≤ later →
          eligible later (retriedRow now row) = true))
    ∧ (maxRetries ≤ row.n_retries →
        try_execute_task send maxRetries now db =
          (ExecutionOutcome.TaskCompleted,
           { db with
               issue_delivery_queue := before ++ after
               sent := (db.sent ++
                 [(row.newsletter_issue_id, row.subscriber_email)]) }))
    ∧ (∀ (db2 : DB) (steps : List Nat) (p : Nat × String),
        (∀ r ∈ db2.issue_delivery_queue,
          (r.newsletter_issue_id, r.subscriber_email) ≠ p) →
        (runSteps send maxRetries steps db2).sent.count p = db2.sent.count p)
    ∧ (maxRetries ≤ row.n_retries →
        (∀ r2 ∈ before ++ after,
          (r2.newsletter_issue_id, r2.subscriber_email) ≠
            (row.newsletter_issue_id, row.subscriber_email)) →
        ∀ steps : List Nat,
          (runSteps send maxRetries steps
            (try_execute_task send maxRetries now db).2).sent.count
              (row.newsletter_issue_id, row.subscriber_email) =
          (try_execute_task send maxRetries now db).2.sent.count
            (row.newsletter_issue_id, row.subscriber_email)) := by
  refine ⟨?_, ?_, ?_, ?_⟩
  · intro hlt
    refine ⟨step_retry hclaim hconf hsendf (Nat.not_le.mpr hlt), rfl, ?_⟩
    intro later hlater
    simp [retriedRow, eligible, hlater]
  · intro hge
    exact step_dead_letter hclaim hconf hsendf hge
  · intro db2 steps p h2
    exact runSteps_preserves_count send maxRetries steps db2 p h2
  · intro hge hothers steps
    have hdead := step_dead_letter hclaim hconf hsendf hge
    rw [hdead]
    exact runSteps_preserves_count send maxRetries steps _ _ hothers

/-- Claim C6 witness: at the concrete one-row store, a transient failure
below the cap (cap 3) keeps the row with `n_retries` 1 and backoff window
ending at 11, while with cap 0 the row is dead-lettered with its one failed
attempt logged, and in that post-dead-letter state the pair's send count —
exactly 1 — stays unchanged over a further two-poll schedule: no send
attempt for the dead-lettered row occurs afterwards. -/
theorem claim_C6_witness :
    ((try_execute_task sendFail 3 10 dbW).2.issue_delivery_queue =
        [{ newsletter_issue_id := 7, subscriber_email := "s@example.com",
           n_retries := 1, execute_after := some 11 }]
      ∧ eligible 11 (retriedRow 10 rowW) = true)
    ∧ (try_execute_task sendFail 0 10 dbW).2.issue_delivery_queue = []
    ∧ (try_execute_task sendFail 0 10 dbW).2.sent.count (7, "s@example.com")
        = 1
    ∧ (runSteps sendFail 0 [11, 12]
          (try_execute_task sendFail 0 10 dbW).2).sent.count
            (7, "s@example.com") =
        (try_execute_task sendFail 0 10 dbW).2.sent.count
          (7, "s@example.com") := by
  have h3 := @claim_C6_retry_and_dead_letter sendFail 3 10 dbW [] [] rowW
    (by decide) (by decide) rfl
  have h0 := @claim_C6_retry_and_dead_letter sendFail 0 10 dbW [] [] rowW
    (by decide) (by decide) rfl
  obtain ⟨ha, _, _, _⟩ := h3
  obtain ⟨hstep, _, helig⟩ := ha (by decide)
  obtain ⟨_, hb, _, hd⟩ := h0
  have hdead := hb (by decide)
  refine ⟨⟨by rw [hstep]; rfl, helig 11 (by decide)⟩,
    by rw [hdead]; rfl, by rw [hdead]; rfl, ?_⟩
  exact hd (by decide) (by simp) [11, 12]

/-- Claim C7: a claimed delivery row whose subscriber is not confirmed is
deleted with the call returning TaskCompleted, and the notification sender
is not invoked (the send log is unchanged). -/
theorem claim_C7_unconfirmed_deleted {send : String → SendResult}
    {maxRetries now : Nat} {db : DB} {before after : List QueueRow}
    {row : QueueRow}
    (hclaim : claimRow now db.issue_delivery_queue = some (before, row, after))
    (hconf : ¬ subscriber_status db row.subscriber_email = some "confirmed") :
    try_execute_task send maxRetries now db =
      (ExecutionOutcome.TaskCompleted,
       { db with issue_delivery_queue := before ++ after })
    ∧ (try_execute_task send maxRetries now db).2.sent = db.sent := by
  refine ⟨step_unconfirmed hclaim hconf, ?_⟩
  rw [step_unconfirmed hclaim hconf]

/-- Claim C7 witness: the unconfirmed subscriber's row is removed without a
send at the concrete store. -/
theorem claim_C7_witness :
    try_execute_task sendOk 3 10 dbU =
      (ExecutionOutcome.TaskCompleted,
       { dbU with issue_delivery_queue := [] ++ [] })
    ∧ (try_execute_task sendOk 3 10 dbU).2.sent = dbU.sent :=
  @claim_C7_unconfirmed_deleted sendOk 3 10 dbU [] [] rowU
    (by decide) (by decide)

/-- Claim C8: with a sender that succeeds, draining a queue of rows that are
all eligible and all addressed to confirmed subscribers invokes the sender
exactly once per row and leaves the queue empty; every call that claims a
row returns TaskCompleted after handling that single row; and EmptyQueue is
returned only when no eligible row exists, with the state untouched. -/
theorem claim_C8_drain_confirmed {send : String → SendResult}
    {maxRetries now : Nat} {db : DB}
    (hsend : ∀ e, send e = SendResult.success)
    (helig : ∀ r ∈ db.issue_delivery_queue, eligible now r = true)
    (hconf : ∀ r ∈ db.issue_delivery_queue,
      subscriber_status db r.subscriber_email = some "confirmed") :
    ((drain send maxRetries now (db.issue_delivery_queue.length + 1)
        db).issue_delivery_queue = []
      ∧ (drain send maxRetries now (db.issue_delivery_queue.length + 1)
          db).sent.length = db.sent.length + db.issue_delivery_queue.length)
    ∧ (∀ (db2 : DB) (b a : List QueueRow) (r : QueueRow),
        claimRow now db2.issue_delivery_queue = some (b, r, a) →
        (try_execute_task send maxRetries now db2).1 =
          ExecutionOutcome.TaskCompleted)
    ∧ (∀ db2 : DB,
        (try_execute_task send maxRetries now db2).1 =
          ExecutionOutcome.EmptyQueue →
        ((∀ r ∈ db2.issue_delivery_queue, eligible now r = false)
          ∧ (try_execute_task send maxRetries now db2).2 = db2)) := by
  have hTask : ∀ (db2 : DB) (b a : List QueueRow) (r : QueueRow),
      claimRow now db2.issue_delivery_queue = some (b, r, a) →
      (try_execute_task send maxRetries now db2).1 =
        ExecutionOutcome.TaskCompleted := by
    intro db2 b a r hclaim
    by_cases hc : subscriber_status db2 r.subscriber_email = some "confirmed"
    · cases hsr : send r.subscriber_email with
      | success => rw [step_confirmed_success hclaim hc hsr]
      | transientFailure =>
        by_cases hm : maxRetries ≤ r.n_retries
        · rw [step_dead_letter hclaim hc hsr hm]
        · rw [step_retry hclaim hc hsr hm]
    · rw [step_unconfirmed hclaim hc]
  refine ⟨?_, hTask, ?_⟩
  · exact drain_all_confirmed maxRetries now hsend db.issue_delivery_queue db
      rfl helig hconf
  · intro db2 hout
    cases hclaim : claimRow now db2.issue_delivery_queue with
    | none =>
      have hstep : try_execute_task send maxRetries now db2 =
          (ExecutionOutcome.EmptyQueue, db2) := by
        unfold try_execute_task; rw [hclaim]
      exact ⟨fun r hr => claimRow_none hclaim r hr, by rw [hstep]⟩
    | some t =>
      obtain ⟨b, r, a⟩ := t
      rw [hTask db2 b a r hclaim] at hout
      exact absurd hout (by simp)

/-- Claim C8 witness: draining the one-row confirmed store with the
succeeding sender empties the queue with exactly one send, a claiming call
returns TaskCompleted, and the empty store yields EmptyQueue untouched. -/
theorem claim_C8_witness :
    ((drain sendOk 3 10 2 dbW).issue_delivery_queue = []
      ∧ (drain sendOk 3 10 2 dbW).sent.length = 1)
    ∧ (try_execute_task sendOk 3 10 dbW).1 = ExecutionOutcome.TaskCompleted
    ∧ (try_execute_task sendOk 3 10 exDB).2 = exDB := by
  have h := @claim_C8_drain_confirmed sendOk 3 10 dbW (fun _ => rfl)
    (by decide) (by decide)
  refine ⟨⟨h.1.1, h.1.2⟩, ?_, ?_⟩
  · exact h.2.1 dbW [] [] rowW (by decide)
  · exact (h.2.2 exDB (by decide)).2

/-- Claim C9: a first-time publish (no prior idempotency row) of a valid
owned issue with a well-formed key, by a user whose store holds exactly one
subscription — their confirmed subscriber — and an empty delivery queue,
returns HTTP 200 whose body message is SUCCESS_MESSAGE, creates exactly one
delivery-queue row, and draining with a succeeding sender leaves zero rows
after exactly one sender invocation. -/
theorem claim_C9_end_to_end {db : DB} {uid iid : Nat} {key : String}
    {now now2 maxRetries : Nat} {sub : Subscription}
    {issue : NewsletterIssue} {send : String → SendResult}
    (hsubs : db.subscriptions = [sub])
    (hstat : sub.status = "confirmed")
    (hsuser : sub.user_id = uid)
    (hqueue : db.issue_delivery_queue = [])
    (hkey : IdempotencyKey.try_from key = Except.ok key)
    (hnorow : findIdemRow? db uid key = none)
    (hfind : find_by_user_id_and_newsletter_issue_id db.issues uid iid
      = some issue)
    (hval : issue.validate_for_publish = Except.ok issue)
    (hsend : ∀ e, send e = SendResult.success) :
    (put db uid iid key now).1.status = 200
    ∧ (put db uid iid key now).1.body = Body.message SUCCESS_MESSAGE
    ∧ (put db uid iid key now).2.issue_delivery_queue =
        [freshQueueRow iid sub.email]
    ∧ (drain send maxRetries now2 2
        (put db uid iid key now).2).issue_delivery_queue = []
    ∧ (drain send maxRetries now2 2 (put db uid iid key now).2).sent.length =
        db.sent.length + 1 := by
  have h1 := @put_success db uid iid key now issue hkey hnorow hfind hval
  have hq2 : (publishSuccessDB db uid iid key now).issue_delivery_queue =
      [freshQueueRow iid sub.email] := by
    simp [publishSuccessDB, hqueue, hsubs, hstat, hsuser]
  have hconf2 : ∀ r ∈ [freshQueueRow iid sub.email],
      subscriber_status (publishSuccessDB db uid iid key now)
        r.subscriber_email = some "confirmed" := by
    intro r hr
    rw [List.mem_singleton] at hr
    subst hr
    simp [subscriber_status, publishSuccessDB, hsubs, hstat, freshQueueRow]
  have helig2 : ∀ r ∈ [freshQueueRow iid sub.email],
      eligible now2 r = true := by
    intro r hr
    rw [List.mem_singleton] at hr
    subst hr
    rfl
  have hd := drain_all_confirmed maxRetries now2 hsend
    [freshQueueRow iid sub.email] (publishSuccessDB db uid iid key now)
    hq2 helig2 hconf2
  refine ⟨?_, ?_, ?_, ?_, ?_⟩
  · rw [h1]; rfl
  · rw [h1]; rfl
  · rw [h1]; exact hq2
  · rw [h1]; exact hd.1
  · rw [h1]; exact hd.2

/-- Claim C9 witness: the end-to-end theorem at the concrete scenario. -/
theorem claim_C9_witness :
    (put exDB 1 7 "key-1" 5).1.status = 200
    ∧ (put exDB 1 7 "key-1" 5).1.body = Body.message SUCCESS_MESSAGE
    ∧ (put exDB 1 7 "key-1" 5).2.issue_delivery_queue =
        [freshQueueRow 7 "s@example.com"]
    ∧ (drain sendOk 3 9 2 (put exDB 1 7 "key-1" 5).2).issue_delivery_queue = []
    ∧ (drain sendOk 3 9 2 (put exDB 1 7 "key-1" 5).2).sent.length = 1 := by
  have h := @claim_C9_end_to_end exDB 1 7 "key-1" 5 9 3 exSub exIssue sendOk
    (by decide) (by decide) (by decide) (by decide) (by decide) (by decide)
    (by decide) (by decide) (fun _ => rfl)
  exact ⟨h.1, h.2.1, h.2.2.1, h.2.2.2.1, h.2.2.2.2⟩

/-- Claim C10, counterexample: on a whitespace-only (but non-empty)
description `validate_for_publish` errors with "A description is required.",
while the claim's stated condition calls the issue valid, so the claimed
equivalence fails at `issueC10`. -/
theorem claim_C10_counterexample :
    ¬ (NewsletterIssue.validate_for_publish issueC10 = Except.ok issueC10 ↔
        claimedPublishValid issueC10 = true) := by
  decide

/-- Claim C10 (amended): `validate_for_publish` returns `Ok` with every
field unchanged exactly when the content is not empty or whitespace-only and
the description and title are not empty or whitespace-only, within their
grapheme-cluster limits (200 and 70) and free of the nine forbidden
characters; otherwise it returns the error of the first failing validator,
checked in the order content, description, title. -/
theorem claim_C10_validate_for_publish (i : NewsletterIssue) :
    (∀ v, i.validate_for_publish = Except.ok v → v = i)
    ∧ (i.validate_for_publish = Except.ok i ↔ correctedPublishValid i = true)
    ∧ (∀ e, i.validate_for_publish = Except.error e ↔
        (Content.parse i.content = Except.error e
          ∨ (Content.parse i.content = Except.ok i.content
              ∧ Description.parse i.description = Except.error e)
          ∨ (Content.parse i.content = Except.ok i.content
              ∧ Description.parse i.description = Except.ok i.description
              ∧ Title.parse i.title = Except.error e))) := by
  cases h1 : is_empty_or_whitespace i.content <;>
  cases h2 : is_empty_or_whitespace i.description <;>
  cases h3 : is_too_long i.description 200 <;>
  cases h4 : contains_forbidden_characters i.description <;>
  cases h5 : is_empty_or_whitespace i.title <;>
  cases h6 : is_too_long i.title 70 <;>
  cases h7 : contains_forbidden_characters i.title <;>
  simp [NewsletterIssue.validate_for_publish, Content.parse, Description.parse,
        Title.parse, correctedPublishValid, h1, h2, h3, h4, h5, h6, h7]

/-- Claim C10 witness: the amended equivalence, evaluated at the concrete
publishable issue. -/
theorem claim_C10_witness :
    NewsletterIssue.validate_for_publish exIssue = Except.ok exIssue ↔
      correctedPublishValid exIssue = true :=
  (claim_C10_validate_for_publish exIssue).2.1

end NewsletterApi
